/-
Verification of the PoE2 trade client (src/trade_client/client.py, src/app.py)
against its natural-language specification.

The embedding below translates the Python source into Lean:
  * decoded JSON bodies become the inductive `JVal`;
  * Python dict operations on string maps become ordered association lists
    with last-binding-wins lookup (`dGet`), merge = append with the right
    operand overriding (`dMerge`, mirroring Python's double-splat update),
    and item assignment = append (`dSet`);
  * Python exceptions become `Except PyErr`;
  * the HTTP transport (requests.Session.send) is abstracted as the decoded
    response it yields: an `HttpResp` (status code plus the JSON decode of
    the body: `none` when the body is not valid JSON);
  * stateful orchestration returns, next to its result, the trace of fetch
    calls it issued, so that call counts and call arguments are observable.

Python's `in` / subscript on non-dict JSON values (list membership, string
containment) is not exercised by any flow or input verified here; those
cases are modelled as the dynamic `typeError`.
-/
import Mathlib

/-- Decoded JSON value, as produced by `json.loads` / `res.json()`. -/
inductive JVal where
  | null
  | jbool (b : Bool)
  | jnum (n : Int)
  | jstr (s : String)
  | jarr (xs : List JVal)
  | jobj (fields : List (String × JVal))

/-- Python truthiness of a decoded JSON value (`if not x`). -/
def JVal.truthy : JVal → Bool
  | .null => false
  | .jbool b => b
  | .jnum n => !(n == 0)
  | .jstr s => !(s == "")
  | .jarr xs => !xs.isEmpty
  | .jobj fs => !fs.isEmpty

/-- Field lookup on a JSON object (first binding; Python dict keys are unique). -/
def getField : JVal → String → Option JVal
  | .jobj fs, k => (fs.find? (fun p => p.1 == k)).map (fun p => p.2)
  | _, _ => none

/-- Python `k in v` for a decoded JSON value; `none` models the TypeError a
non-dict operand raises in the flows verified here. -/
def pyIn (k : String) : JVal → Option Bool
  | .jobj fs => some (fs.any (fun p => p.1 == k))
  | _ => none

/-- Python dynamic errors surfaced by the client code. -/
inductive PyErr where
  | httpError (status : Nat)
  | jsonDecodeError
  | keyError (k : String)
  | typeError
deriving DecidableEq, Repr

/-- Python subscript `v[k]` with a string key: KeyError when the key is
missing from a dict, TypeError on a non-dict operand. -/
def pySub (v : JVal) (k : String) : Except PyErr JVal :=
  match v with
  | .jobj fs =>
    match fs.find? (fun p => p.1 == k) with
    | some p => .ok p.2
    | none => .error (.keyError k)
  | _ => .error .typeError

/-- Reads a JSON array of strings, as `",".join(...)` requires; `none`
models the TypeError joining a non-string element raises. -/
def asStrList : List JVal → Option (List String)
  | [] => some []
  | .jstr s :: xs => (asStrList xs).map (fun r => s :: r)
  | _ :: _ => none

/-- Python `str()` rendering as interpolated into an f-string (only the
scalar cases are exercised by the flows verified here). -/
def pyToString : JVal → String
  | .jstr s => s
  | .jnum n => toString n
  | .jbool true => "True"
  | .jbool false => "False"
  | _ => ""

/-- One decoded transport-level HTTP response: status code and the JSON
decode of the body (`none` when the body is not valid JSON). -/
structure HttpResp where
  status : Nat
  jsonBody : Option JVal

/-- String-keyed Python dict as an ordered association list; the lookup is
last-binding-wins so that a later insertion overrides an earlier one. -/
def dGet (d : List (String × String)) (k : String) : Option String :=
  match d.reverse.find? (fun p => p.1 == k) with
  | some p => some p.2
  | none => none

/-- Python dict merge by double-splat: the right operand overrides. -/
def dMerge (a b : List (String × String)) : List (String × String) := a ++ b

/-- Python dict item assignment `d[k] = v` (overrides any earlier binding
under the last-binding-wins lookup). -/
def dSet (d : List (String × String)) (k v : String) : List (String × String) :=
  d ++ [(k, v)]

/-- The `default_factory` dict of `ClientConfig.default_headers`
(client.py lines 26-33). -/
def default_headers_list : List (String × String) :=
  [("User-Agent",
    "Mozilla/5.0 (Windows NT 10.0; Win64; x64; rv:109.0) Gecko/20100101 Firefox/111.0"),
   ("Accept", "*/*"),
   ("Content-Type", "application/json")]

/-- `ClientConfig` (client.py lines 21-34), without the logging level. -/
structure ClientConfig where
  league : String
  poesessid : String
  url : String
  default_headers : List (String × String)

/-- A `ClientConfig` built with the dataclass field defaults applied. -/
def mkClientConfig (league poesessid : String) : ClientConfig :=
  ⟨league, poesessid, "https://www.pathofexile.com/api/trade2/", default_headers_list⟩

/-- `TradeClient._build_headers` (client.py lines 65-69): merge the config
defaults with the per-call extras, then assign the session cookie. -/
def build_headers (cfg : ClientConfig) (extras : List (String × String)) :
    List (String × String) :=
  dSet (dMerge cfg.default_headers extras) "Cookie" ("POESESSID=" ++ cfg.poesessid)

/-- `TradeClient._build_search_url` (client.py lines 71-72). -/
def build_search_url (cfg : ClientConfig) : String :=
  cfg.url ++ "search/" ++ cfg.league

/-- `TradeClient._build_fetch_url` (client.py lines 74-75). -/
def build_fetch_url (cfg : ClientConfig) (search_results : List String) : String :=
  cfg.url ++ "fetch/" ++ String.intercalate "," search_results

/-- `TradeClient._build_livesearch_url` (client.py lines 77-81). -/
def build_livesearch_url (cfg : ClientConfig) (query_id : String) : String :=
  (cfg.url.replace "https" "wss") ++ "live/" ++ cfg.league ++ "/" ++ query_id

/-- `TradeClient._build_whisper_url` (client.py lines 83-84). -/
def build_whisper_url (cfg : ClientConfig) : String :=
  cfg.url ++ "whisper"

/-- `TradeClient._request` (client.py lines 86-100): with `raise_error`,
`res.raise_for_status()` raises `requests.HTTPError` exactly on a 4xx or
5xx status (the error is logged first, then re-raised). -/
def request_ (res : HttpResp) (raise_error : Bool) : Except PyErr HttpResp :=
  if raise_error then
    if 400 ≤ res.status ∧ res.status < 600 then .error (.httpError res.status)
    else .ok res
  else .ok res

/-- `TradeClient._search` (client.py lines 102-111): raising request, then
`res.json()` (an undecodable body raises `JSONDecodeError`, uncaught). -/
def search_ (res : HttpResp) : Except PyErr JVal :=
  match request_ res true with
  | .error e => .error e
  | .ok r =>
    match r.jsonBody with
    | some j => .ok j
    | none => .error .jsonDecodeError

/-- `TradeClient._fetch` (client.py lines 113-122): same response handling
as `_search` (raising request, then `res.json()`). -/
def fetch_ (res : HttpResp) : Except PyErr JVal :=
  match request_ res true with
  | .error e => .error e
  | .ok r =>
    match r.jsonBody with
    | some j => .ok j
    | none => .error .jsonDecodeError

/-- One iteration of the accumulation loop inside `TradeClient._build_pages`
(client.py lines 163-168): append to the open page while it is below the
page width, otherwise flush it and start a new page with the element. -/
def pagesStep (page_width : Nat) (st : List (List α) × List α) (r : α) :
    List (List α) × List α :=
  if st.2.length < page_width then (st.1, st.2 ++ [r])
  else (st.1 ++ [st.2], [r])

/-- `TradeClient._build_pages` (client.py lines 155-172): a list of at most
`page_width` elements is returned as a single page; otherwise the elements
are folded through `pagesStep` and a non-empty leftover page is appended. -/
def build_pages (all_results : List α) (page_width : Nat := 10) :
    List (List α) :=
  if all_results.length ≤ page_width then [all_results]
  else
    let fin := all_results.foldl (pagesStep page_width) ([], [])
    if fin.2.isEmpty then fin.1 else fin.1 ++ [fin.2]

/-- Recursive characterization of the `pagesStep` fold: the pages already
flushed plus the open page, consumed against the remaining input. -/
def pagesLoop (P : Nat) : List α → List α → List (List α)
  | page, [] => if page.isEmpty then [] else [page]
  | page, x :: xs =>
    if page.length < P then pagesLoop P (page ++ [x]) xs
    else page :: pagesLoop P [x] xs

/-- The literal `return {"result": []}` of `_normal_search`. -/
def emptyFetchResponse : JVal := JVal.jobj [("result", JVal.jarr [])]

/-- One fetch call issued through `TradeClient._fetch`: the URL built by
`_build_fetch_url` and the `query` parameter (the search's query id). -/
structure FetchCall where
  url : String
  queryId : JVal

/-- `TradeClient._normal_search` (client.py lines 194-207), over the decoded
search response and a transport function giving the decoded response of each
fetch request. Returns the outcome together with the trace of fetch calls.
Source order is preserved: the guard on a missing `result` field, the paging
of `search_res["result"]`, the (never-taken) guard on an empty page list,
then a single fetch of `paged_ids[0]` against `search_res["id"]` - the
comma-join of the ids is evaluated before the `id` subscript. -/
def normal_search (cfg : ClientConfig) (searchResp : HttpResp)
    (fetchResp : String → JVal → HttpResp) : Except PyErr JVal × List FetchCall :=
  match search_ searchResp with
  | .error e => (.error e, [])
  | .ok search_res =>
    match pyIn "result" search_res with
    | none => (.error .typeError, [])
    | some false => (.ok emptyFetchResponse, [])
    | some true =>
      match getField search_res "result" with
      | some (JVal.jarr rs) =>
        let paged_ids := build_pages rs 10
        if paged_ids.isEmpty then (.ok emptyFetchResponse, [])
        else
          match asStrList (paged_ids.headD []) with
          | none => (.error .typeError, [])
          | some ids0 =>
            match pySub search_res "id" with
            | .error e => (.error e, [])
            | .ok qid =>
              let url := build_fetch_url cfg ids0
              match fetch_ (fetchResp url qid) with
              | .error e => (.error e, [⟨url, qid⟩])
              | .ok fetch_res => (.ok fetch_res, [⟨url, qid⟩])
      | _ => (.error .typeError, [])

/-- The websocket session `_live_search` (client.py lines 209-225) reaches
once the initial search has succeeded: the captured query id, the stream URL
and the connection headers handed to `websocket.WebSocketApp`. -/
structure LiveSession where
  searchId : JVal
  streamUrl : String
  headers : List (String × String)

/-- `TradeClient._live_search` (client.py lines 209-225) up to the point the
stream is opened: `search_id = self._search(...)["id"]`, then the
`WebSocketApp` is constructed. An error result means the session aborted
before any streaming connection was opened. -/
def live_search (cfg : ClientConfig) (searchResp : HttpResp) :
    Except PyErr LiveSession :=
  match search_ searchResp with
  | .error e => .error e
  | .ok body =>
    match pySub body "id" with
    | .error e => .error e
    | .ok qid =>
      .ok ⟨qid, build_livesearch_url cfg (pyToString qid), build_headers cfg []⟩

/-- The `on_message` closure built by `_build_ws_message_handler`
(client.py lines 174-192), applied to the JSON decode of one inbound frame
(`none` when `json.loads` raised, which the handler catches and ignores).
Returns the fetch calls issued and the arguments the caller-supplied
callback was invoked with; an `error` result is an exception escaping the
handler (there is no try/except around the fetch). -/
def on_message (cfg : ClientConfig) (search_id : JVal) (hasCallback : Bool)
    (fetchResp : String → JVal → HttpResp) (decoded : Option JVal) :
    Except PyErr (List FetchCall × List JVal) :=
  match decoded with
  | none => .ok ([], [])
  | some msg_data =>
    match pyIn "new" msg_data with
    | none => .error .typeError
    | some false => .ok ([], [])
    | some true =>
      match getField msg_data "new" with
      | some (JVal.jarr new_item) =>
        match asStrList new_item with
        | none => .error .typeError
        | some ids =>
          let url := build_fetch_url cfg ids
          match fetch_ (fetchResp url search_id) with
          | .error e => .error e
          | .ok fetch_res =>
            .ok ([⟨url, search_id⟩], if hasCallback then [fetch_res] else [])
      | _ => .error .typeError

/-- Feeding a sequence of decoded frames through the `on_message` handler in
arrival order, accumulating fetch calls and callback invocations; stops at
the first exception escaping the handler. -/
def run_frames (cfg : ClientConfig) (search_id : JVal) (hasCallback : Bool)
    (fetchResp : String → JVal → HttpResp) :
    List (Option JVal) → List FetchCall × List JVal →
      Except PyErr (List FetchCall × List JVal)
  | [], acc => .ok acc
  | f :: fs, acc =>
    match on_message cfg search_id hasCallback fetchResp f with
    | .error e => .error e
    | .ok (calls, cbs) =>
      run_frames cfg search_id hasCallback fetchResp fs
        (acc.1 ++ calls, acc.2 ++ cbs)

/-- The structured outcome `_whisper` substitutes for an undecodable body
(client.py line 139). -/
def invalid_json_whisper : JVal :=
  JVal.jobj [("error", JVal.jobj [("message", JVal.jstr "Invalid JSON response")])]

/-- `TradeClient._whisper` (client.py lines 124-139): non-raising request
(`raise_error=False`), then `res.json()` with `json.JSONDecodeError` caught
and replaced by the structured invalid-JSON outcome. -/
def whisper_ (res : HttpResp) : Except PyErr JVal :=
  match request_ res false with
  | .error e => .error e
  | .ok r =>
    match r.jsonBody with
    | some j => .ok j
    | none => .ok invalid_json_whisper

/-- `TradeClient.whisper` (client.py lines 233-237): call `_whisper`, and if
the outcome carries an "error" key, log `r["error"]["message"]` (these two
subscripts can raise on an unexpected shape), then return the outcome. -/
def whisper (res : HttpResp) : Except PyErr JVal :=
  match whisper_ res with
  | .error e => .error e
  | .ok r =>
    match pyIn "error" r with
    | none => .error .typeError
    | some false => .ok r
    | some true =>
      match pySub r "error" with
      | .error e => .error e
      | .ok ev =>
        match pySub ev "message" with
        | .error e => .error e
        | .ok _ => .ok r

/-- Response shapes under which `whisper`'s handling is exception-free: an
undecodable body, a decoded object without an "error" key, or one whose
"error" value is an object carrying a "message" key. -/
def whisper_tolerable : Option JVal → Bool
  | none => true
  | some (JVal.jobj fs) =>
    match (JVal.jobj fs |> pyIn "error") with
    | some false => true
    | _ =>
      match getField (JVal.jobj fs) "error" with
      | some (JVal.jobj evs) => evs.any (fun p => p.1 == "message")
      | _ => false
  | some _ => false

/-- Whether an embedded Python computation finished without an exception. -/
def exceptOk : Except PyErr JVal → Bool
  | .ok _ => true
  | .error _ => false

/-- The three-way branch of `main` (app.py lines 29-49) on the decoded
response handed back by `client.search`: the no-items early return, the
fetch-response branch (no `id` key), and the search-response branch. -/
inductive MainClass where
  | noItems
  | fetchLike (items : List JVal)
  | searchLike (queryId : JVal) (resultIds : List JVal)

/-- The response-shape decision of `main` (app.py lines 29-49), in source
order: `not search_res or "result" not in search_res or not
search_res["result"]` short-circuits to the no-items outcome, then a
missing `id` key selects the fetch-response branch
(`search_res.get("result", [])`), otherwise the search-response branch
carries `search_res["id"]` and `search_res["result"]`. -/
def classify_main (search_res : JVal) : Except PyErr MainClass :=
  if search_res.truthy = false then .ok .noItems
  else
    match pyIn "result" search_res with
    | none => .error .typeError
    | some false => .ok .noItems
    | some true =>
      match getField search_res "result" with
      | some rv =>
        if rv.truthy = false then .ok .noItems
        else
          match pyIn "id" search_res with
          | none => .error .typeError
          | some false =>
            match rv with
            | JVal.jarr items => .ok (.fetchLike items)
            | _ => .error .typeError
          | some true =>
            match pySub search_res "id" with
            | .error e => .error e
            | .ok idv =>
              match rv with
              | JVal.jarr ids => .ok (.searchLike idv ids)
              | _ => .error .typeError
      | none => .error (.keyError "result")

/-- A heap of Python dict objects, to make aliasing and in-place mutation
of header dicts observable (for the frame property of `_build_headers`). -/
structure Store where
  dicts : List (List (String × String))

/-- Allocate a fresh dict object holding `d`; returns its reference. -/
def alloc (s : Store) (d : List (String × String)) : Store × Nat :=
  (⟨s.dicts ++ [d]⟩, s.dicts.length)

/-- Read the dict object behind a reference. -/
def readDict (s : Store) (r : Nat) : List (String × String) :=
  s.dicts.getD r []

/-- In-place item assignment `d[k] = v` on the dict object behind `r`. -/
def writeKey (s : Store) (r : Nat) (k v : String) : Store :=
  ⟨s.dicts.set r (dSet (s.dicts.getD r []) k v)⟩

/-- `TradeClient._build_headers` (client.py lines 65-69) with its dict
operations made explicit against the heap: `h = {**defaults, **extras}`
reads both operands and allocates a fresh dict, then `h["Cookie"] = ...`
mutates only that fresh dict. Returns the new heap and `h`'s reference. -/
def build_headers_st (s : Store) (cfg : ClientConfig) (defaultsRef extrasRef : Nat) :
    Store × Nat :=
  let merged := dMerge (readDict s defaultsRef) (readDict s extrasRef)
  let s1h := alloc s merged
  let s2 := writeKey s1h.1 s1h.2 "Cookie" ("POESESSID=" ++ cfg.poesessid)
  (s2, s1h.2)

/-- The headers attached to the search request (client.py line 107). -/
def search_headers (cfg : ClientConfig) : List (String × String) :=
  build_headers cfg []

/-- The headers attached to every fetch request (client.py line 119). -/
def fetch_headers (cfg : ClientConfig) : List (String × String) :=
  build_headers cfg []

/-- The headers attached to the whisper request (client.py line 130). -/
def whisper_headers (cfg : ClientConfig) : List (String × String) :=
  build_headers cfg [("X-Requested-With", "XMLHttpRequest")]

/-- The headers attached to the live websocket connection (client.py line 223). -/
def live_headers (cfg : ClientConfig) : List (String × String) :=
  build_headers cfg []

/-- A concrete client configuration used by the concrete evaluations. -/
def sampleCfg : ClientConfig := mkClientConfig "Standard" "sessid123"

/-- 23 result ids, the end-to-end scenario of the spec. -/
def ids23 : List String := (List.range 23).map (fun n => "id" ++ toString n)

/-- A decoded search response with query id "q1" and 23 result ids. -/
def body23 : JVal :=
  JVal.jobj [("id", JVal.jstr "q1"), ("result", JVal.jarr (ids23.map JVal.jstr))]

/-- A fetch transport stub: every fetch request gets a 200 response holding
an empty hydrated result list. -/
def fetchStub : String → JVal → HttpResp :=
  fun _ _ => ⟨200, some (JVal.jobj [("result", JVal.jarr [])])⟩

/-- The decodes of the live-frame sequence
`["not json", '\x7b"new":["a","b"]\x7d', '\x7b"other":1\x7d']`:
the first is not valid JSON, the second carries a "new" ids field, the
third is an unrelated object. -/
def frames_c4 : List (Option JVal) :=
  [none,
   some (JVal.jobj [("new", JVal.jarr [JVal.jstr "a", JVal.jstr "b"])]),
   some (JVal.jobj [("other", JVal.jnum 1)])]

lemma foldl_pagesStep_eq_pagesLoop (P : Nat) (xs : List α) :
    ∀ (pages : List (List α)) (page : List α),
      (if (xs.foldl (pagesStep P) (pages, page)).2.isEmpty
        then (xs.foldl (pagesStep P) (pages, page)).1
        else (xs.foldl (pagesStep P) (pages, page)).1
          ++ [(xs.foldl (pagesStep P) (pages, page)).2])
      = pages ++ pagesLoop P page xs := by
  induction xs with
  | nil =>
    intro pages page
    by_cases h : page.isEmpty
    · simp [pagesLoop, h]
    · simp [pagesLoop, h]
  | cons x xs ih =>
    intro pages page
    rw [List.foldl_cons]
    by_cases h : page.length < P
    · have hstep : pagesStep P (pages, page) x = (pages, page ++ [x]) := by
        simp [pagesStep, h]
      rw [hstep, ih pages (page ++ [x])]
      simp [pagesLoop, h]
    · have hstep : pagesStep P (pages, page) x = (pages ++ [page], [x]) := by
        simp [pagesStep, h]
      rw [hstep, ih (pages ++ [page]) [x]]
      simp [pagesLoop, h]

lemma build_pages_eq_pagesLoop (P : Nat) (l : List α) (h : ¬ l.length ≤ P) :
    build_pages l P = pagesLoop P [] l := by
  have hb := foldl_pagesStep_eq_pagesLoop P l [] []
  simp only [List.nil_append] at hb
  rw [build_pages, if_neg h]
  exact hb

lemma pagesLoop_flatten (P : Nat) (xs : List α) :
    ∀ page, (pagesLoop P page xs).flatten = page ++ xs := by
  induction xs with
  | nil =>
    intro page
    by_cases h : page.isEmpty
    · simp [pagesLoop, h, List.isEmpty_iff.mp h]
    · simp [pagesLoop, h]
  | cons x xs ih =>
    intro page
    by_cases h : page.length < P
    · simp [pagesLoop, h, ih]
    · simp [pagesLoop, h, ih]

lemma pagesLoop_batches (P : Nat) (hP : 1 ≤ P) (xs : List α) :
    ∀ page, page ≠ [] → page.length ≤ P →
      ∀ b ∈ pagesLoop P page xs, b.length ≤ P ∧ b ≠ [] := by
  induction xs with
  | nil =>
    intro page hne hlen b hb
    rw [pagesLoop, if_neg (by simpa using hne)] at hb
    simp only [List.mem_singleton] at hb
    exact hb ▸ ⟨hlen, hne⟩
  | cons x xs ih =>
    intro page hne hlen b hb
    by_cases h : page.length < P
    · rw [pagesLoop, if_pos h] at hb
      exact ih (page ++ [x]) (by simp) (by simp; omega) b hb
    · rw [pagesLoop, if_neg h] at hb
      rcases List.mem_cons.mp hb with rfl | hb
      · exact ⟨hlen, hne⟩
      · exact ih [x] (by simp) (by simpa using hP) b hb

lemma pagesLoop_length (P : Nat) (xs : List α) :
    ∀ page, 1 ≤ page.length → page.length ≤ P →
      (pagesLoop P page xs).length = (page.length + xs.length + P - 1) / P := by
  induction xs with
  | nil =>
    intro page h1 hP2
    have hne : page ≠ [] := List.ne_nil_of_length_pos (by omega)
    rw [pagesLoop, if_neg (by simpa using hne)]
    simp only [List.length_nil, Nat.add_zero, List.length_singleton]
    exact (Nat.div_eq_of_lt_le (by omega) (by omega)).symm
  | cons x xs ih =>
    intro page h1 hP
    by_cases h : page.length < P
    · rw [pagesLoop, if_pos h]
      rw [ih (page ++ [x]) (by simp) (by simp; omega)]
      congr 1
      simp
      omega
    · have hPpos : 0 < P := by omega
      rw [pagesLoop, if_neg h]
      have heq : page.length = P := by omega
      rw [List.length_cons, ih [x] (by simp) (by simpa using hPpos)]
      have harg : page.length + (x :: xs).length + P - 1
          = ([x].length + xs.length + P - 1) + P := by
        simp
        omega
      rw [harg, Nat.add_div_right _ hPpos]

lemma pagesLoop_ne_nil (P : Nat) (xs : List α) :
    ∀ page, page ≠ [] → pagesLoop P page xs ≠ [] := by
  induction xs with
  | nil =>
    intro page hne
    rw [pagesLoop, if_neg (by simpa using hne)]
    simp
  | cons x xs ih =>
    intro page hne
    by_cases h : page.length < P
    · rw [pagesLoop, if_pos h]
      exact ih (page ++ [x]) (by simp)
    · rw [pagesLoop, if_neg h]
      simp

lemma build_pages_ne_nil (l : List α) (P : Nat) (hP : 1 ≤ P) :
    build_pages l P ≠ [] := by
  by_cases h : l.length ≤ P
  · rw [build_pages, if_pos h]
    simp
  · rw [build_pages_eq_pagesLoop P l h]
    match l with
    | [] => simp at h
    | x :: xs =>
      rw [pagesLoop, if_pos (by simpa using hP)]
      exact pagesLoop_ne_nil P xs [x] (by simp)

lemma pyIn_true_of_getField {fs : List (String × JVal)} {k : String} {v : JVal}
    (h : getField (JVal.jobj fs) k = some v) : pyIn k (JVal.jobj fs) = some true := by
  simp only [getField, Option.map_eq_some'] at h
  obtain ⟨p, hp, _⟩ := h
  simp only [pyIn, Option.some_inj]
  rw [List.any_eq_true]
  have hpk := List.find?_some hp
  exact ⟨p, List.mem_of_find?_eq_some hp, hpk⟩

lemma truthy_of_getField {fs : List (String × JVal)} {k : String} {v : JVal}
    (h : getField (JVal.jobj fs) k = some v) : (JVal.jobj fs).truthy = true := by
  simp only [getField, Option.map_eq_some'] at h
  obtain ⟨p, hp, _⟩ := h
  have hmem := List.mem_of_find?_eq_some hp
  simp only [JVal.truthy, Bool.not_eq_true']
  rw [List.isEmpty_eq_false_iff_exists_mem]
  exact ⟨p, hmem⟩

lemma pyIn_true_of_pySub {fs : List (String × JVal)} {k : String} {v : JVal}
    (h : pySub (JVal.jobj fs) k = .ok v) : pyIn k (JVal.jobj fs) = some true := by
  simp only [pySub] at h
  cases hfind : fs.find? (fun p => p.1 == k) with
  | none => rw [hfind] at h; exact absurd h (by simp)
  | some p =>
    simp only [pyIn, Option.some_inj]
    rw [List.any_eq_true]
    have hpk := List.find?_some hfind
    exact ⟨p, List.mem_of_find?_eq_some hfind, hpk⟩

lemma dGet_dSet_self (d : List (String × String)) (k v : String) :
    dGet (dSet d k v) k = some v := by
  simp [dGet, dSet, List.find?]

/-- C3 (amended): for every non-empty list of IDs of length L and page size
P ≥ 1, `_build_pages` returns exactly ceil(L/P) = (L + P - 1) / P batches,
each batch is non-empty of size at most P, and the in-order concatenation
of all batches is the original list. The amendment: for L = 0 the code
returns the single empty batch `[[]]` rather than ceil(0/P) = 0 batches
(its first guard `len(all_results) <= page_width` fires on the empty list),
so the claim's batch count and non-emptiness fail at L = 0. -/
theorem build_pages_spec {α : Type} (l : List α) (P : Nat) (hP : 1 ≤ P)
    (hl : l ≠ []) :
    (build_pages l P).length = (l.length + P - 1) / P
    ∧ (∀ b ∈ build_pages l P, b.length ≤ P ∧ b ≠ [])
    ∧ (build_pages l P).flatten = l := by
  by_cases h : l.length ≤ P
  · rw [build_pages, if_pos h]
    have h1 : 1 ≤ l.length := List.length_pos.mpr hl
    refine ⟨?_, ?_, by simp⟩
    · simp only [List.length_singleton]
      exact (Nat.div_eq_of_lt_le (by omega) (by omega)).symm
    · intro b hb
      simp only [List.mem_singleton] at hb
      exact hb ▸ ⟨h, hl⟩
  · rw [build_pages_eq_pagesLoop P l h]
    match l with
    | [] => exact absurd rfl hl
    | x :: xs =>
      rw [pagesLoop, if_pos (by simpa using hP)]
      simp only [List.nil_append]
      refine ⟨?_, ?_, ?_⟩
      · rw [pagesLoop_length P xs [x] (by simp) (by simpa using hP)]
        have harg : List.length [x] + xs.length + P - 1 = (x :: xs).length + P - 1 := by
          simp only [List.length_singleton, List.length_cons, List.length_nil]
          omega
        rw [harg]
      · exact pagesLoop_batches P hP xs [x] (by simp) (by simpa using hP)
      · rw [pagesLoop_flatten]
        simp
/-- C3 counterexample: at L = 0 (and page size 10) the pager returns one
batch, not ceil(0/10) = 0 batches - `_build_pages([])` is `[[]]`. -/
theorem build_pages_empty_cex :
    (build_pages ([] : List String) 10).length
      ≠ (List.length ([] : List String) + 10 - 1) / 10 := by
  decide

/-- C3 witness: the amended pager contract evaluated at a concrete input. -/
theorem build_pages_spec_witness :
    (build_pages ["a", "b", "c"] 2).length = (List.length ["a", "b", "c"] + 2 - 1) / 2 :=
  (build_pages_spec ["a", "b", "c"] 2 (by decide) (by decide)).1

/-- C2 (code bug, evaluated at the failing input): on a search response
with an empty result list, `_normal_search` does issue a fetch call, with
an empty ID list - `_build_pages([])` returns `[[]]`, so the
`if not paged_ids` guard meant to end the operation with zero items never
fires, and `_build_fetch_url([])` produces the fetch URL with an empty ID
segment. -/
theorem empty_result_issues_empty_fetch :
    (normal_search sampleCfg
        ⟨200, some (JVal.jobj [("id", JVal.jstr "q1"), ("result", JVal.jarr [])])⟩
        fetchStub).2
      = [⟨build_fetch_url sampleCfg [], JVal.jstr "q1"⟩]
    ∧ build_fetch_url sampleCfg [] = sampleCfg.url ++ "fetch/" := by
  exact ⟨rfl, by simp [build_fetch_url, String.intercalate]⟩

/-- C8: a non-success status on the initial search call makes both the
normal flow and the live flow abort by raising the HTTP error, with no
fetch call issued and, for the live flow, before any streaming connection
is opened. -/
theorem search_http_error_aborts (cfg : ClientConfig) (st : Nat)
    (body : Option JVal) (fetchResp : String → JVal → HttpResp)
    (h4 : 400 ≤ st) (h6 : st < 600) :
    normal_search cfg ⟨st, body⟩ fetchResp = (.error (.httpError st), [])
    ∧ live_search cfg ⟨st, body⟩ = .error (.httpError st) := by
  have hs : search_ ⟨st, body⟩ = .error (.httpError st) := by
    simp [search_, request_, h4, h6]
  exact ⟨by simp [normal_search, hs], by simp [live_search, hs]⟩

/-- C8 witness: a concrete 404 on the initial search. -/
theorem search_http_error_aborts_witness :
    normal_search sampleCfg ⟨404, none⟩ fetchStub = (.error (.httpError 404), [])
    ∧ live_search sampleCfg ⟨404, none⟩ = .error (.httpError 404) :=
  search_http_error_aborts sampleCfg 404 none fetchStub (by decide) (by decide)

/-- C1 (amended): for every search response carrying a query id and a
result list, `_normal_search` issues exactly ONE fetch call - for the first
batch produced by the pager only (its source comments "Only going to show
the first 10 results to avoid rate limiting") - and returns that single
fetch's outcome, not the concatenation over all batches; with 23 ids it
issues 1 call of 10 IDs, not ceil(23/10) = 3 calls. -/
theorem normal_search_first_page_only (cfg : ClientConfig)
    (fs : List (String × JVal)) (rs : List JVal) (ids0 : List String)
    (qid : JVal) (fetchResp : String → JVal → HttpResp)
    (hres : getField (JVal.jobj fs) "result" = some (JVal.jarr rs))
    (hid : pySub (JVal.jobj fs) "id" = .ok qid)
    (hids : asStrList ((build_pages rs 10).headD []) = some ids0) :
    normal_search cfg ⟨200, some (JVal.jobj fs)⟩ fetchResp
      = (fetch_ (fetchResp (build_fetch_url cfg ids0) qid),
         [⟨build_fetch_url cfg ids0, qid⟩]) := by
  have hs : search_ ⟨200, some (JVal.jobj fs)⟩ = .ok (JVal.jobj fs) := rfl
  have hpag : (build_pages rs 10).isEmpty = false := by
    have hne := build_pages_ne_nil rs 10 (by omega)
    cases hE : (build_pages rs 10).isEmpty
    · rfl
    · exact absurd (List.isEmpty_iff.mp hE) hne
  have hids' : asStrList ((build_pages rs 10).head?.getD []) = some ids0 := by
    simpa using hids
  cases hf : fetch_ (fetchResp (build_fetch_url cfg ids0) qid) with
  | error e =>
    simp [normal_search, hs, pyIn_true_of_getField hres, hres, hpag, hids', hid, hf]
  | ok r =>
    simp [normal_search, hs, pyIn_true_of_getField hres, hres, hpag, hids', hid, hf]

/-- C1 witness: the 23-id search response; one fetch call for the first
10 ids. -/
theorem normal_search_first_page_only_witness :
    normal_search sampleCfg ⟨200, some body23⟩ fetchStub
      = (fetch_ (fetchStub (build_fetch_url sampleCfg (ids23.take 10)) (JVal.jstr "q1")),
         [⟨build_fetch_url sampleCfg (ids23.take 10), JVal.jstr "q1"⟩]) :=
  normal_search_first_page_only sampleCfg
    [("id", JVal.jstr "q1"), ("result", JVal.jarr (ids23.map JVal.jstr))]
    (ids23.map JVal.jstr) (ids23.take 10) (JVal.jstr "q1") fetchStub
    rfl rfl (by decide)

/-- C1 counterexample: with the 23-id search response the normal search
issues 1 fetch call, not the 3 the claim states. -/
theorem normal_search_not_three_calls_cex :
    (normal_search sampleCfg ⟨200, some body23⟩ fetchStub).2.length = 1
    ∧ (normal_search sampleCfg ⟨200, some body23⟩ fetchStub).2.length ≠ 3 := by
  constructor
  · decide
  · decide

/-- C5 (amended): a fetch failure inside the live message handler is logged
by the request layer but then raised: `on_message` contains no try/except
around the fetch, so the error propagates out of the handler (into the
websocket library) instead of being contained. -/
theorem on_message_fetch_error_propagates (cfg : ClientConfig)
    (search_id : JVal) (hasCb : Bool) (fetchResp : String → JVal → HttpResp)
    (fs : List (String × JVal)) (nv : List JVal) (ids : List String) (e : PyErr)
    (hnew : getField (JVal.jobj fs) "new" = some (JVal.jarr nv))
    (hids : asStrList nv = some ids)
    (hfail : fetch_ (fetchResp (build_fetch_url cfg ids) search_id) = .error e) :
    on_message cfg search_id hasCb fetchResp (some (JVal.jobj fs)) = .error e := by
  rw [on_message, pyIn_true_of_getField hnew, hnew]
  simp only [hids, hfail]

/-- C5 witness: a concrete 503 on the per-notification fetch escapes the
handler. -/
theorem on_message_fetch_error_propagates_witness :
    on_message sampleCfg (JVal.jstr "q1") true (fun _ _ => ⟨503, none⟩)
      (some (JVal.jobj [("new", JVal.jarr [JVal.jstr "a"])]))
      = .error (.httpError 503) :=
  on_message_fetch_error_propagates sampleCfg (JVal.jstr "q1") true
    (fun _ _ => ⟨503, none⟩) [("new", JVal.jarr [JVal.jstr "a"])]
    [JVal.jstr "a"] ["a"] (.httpError 503) rfl rfl rfl

/-- C5 counterexample: at a concrete notification whose fetch returns a 500,
the handler terminates with the raised HTTPError - the failure does
propagate out of the message handler, contrary to the claim. -/
theorem on_message_fetch_error_cex :
    on_message sampleCfg (JVal.jstr "q1") true (fun _ _ => ⟨500, none⟩)
      (some (JVal.jobj [("new", JVal.jarr [JVal.jstr "a"])]))
      = .error (.httpError 500) := rfl

/-- C4: fed the decoded frame sequence of `["not json",
'\x7b"new":["a","b"]\x7d', '\x7b"other":1\x7d']`, the live message handler
issues exactly one fetch call - for exactly the ids "a","b" against the
original query id - and invokes the caller-supplied callback exactly once,
with that fetch's hydrated result; the malformed frame and the frame
without a "new" field produce no fetch, no callback and no exception. -/
theorem ws_handler_frames_spec (cfg : ClientConfig) (search_id : JVal)
    (r : JVal) (fetchResp : String → JVal → HttpResp)
    (hf : fetchResp (build_fetch_url cfg ["a", "b"]) search_id = ⟨200, some r⟩) :
    run_frames cfg search_id true fetchResp frames_c4 ([], [])
      = .ok ([⟨build_fetch_url cfg ["a", "b"], search_id⟩], [r]) := by
  have hfe : fetch_ (fetchResp (build_fetch_url cfg ["a", "b"]) search_id)
      = .ok r := by
    rw [hf]
    rfl
  simp [frames_c4, run_frames, on_message, pyIn, getField, asStrList, hfe]

/-- C4 witness: a concrete query id and fetch fixture. -/
theorem ws_handler_frames_spec_witness :
    run_frames sampleCfg (JVal.jstr "q1") true
      (fun _ _ => ⟨200, some (JVal.jobj [("result", JVal.jarr [])])⟩)
      frames_c4 ([], [])
      = .ok ([⟨build_fetch_url sampleCfg ["a", "b"], JVal.jstr "q1"⟩],
             [JVal.jobj [("result", JVal.jarr [])]]) :=
  ws_handler_frames_spec sampleCfg (JVal.jstr "q1")
    (JVal.jobj [("result", JVal.jarr [])])
    (fun _ _ => ⟨200, some (JVal.jobj [("result", JVal.jarr [])])⟩) rfl

/-- C6 (amended): the decision of `main` on a decoded body, in its source
order: a body whose `result` list is present and truthy (non-empty) is
classified by the presence of `id` - SearchResult carrying that id and the
result list when `id` is present, FetchResult carrying the items when it is
absent; a body lacking `result`, or falsy, or with an empty `result` list
all fall into the single no-items outcome (the code merges the Malformed
case and the empty-result case into one branch before ever testing `id`). -/
theorem classify_main_rule :
    (∀ fs, pyIn "result" (JVal.jobj fs) = some false →
      classify_main (JVal.jobj fs) = .ok .noItems)
    ∧ (∀ fs ids idv, getField (JVal.jobj fs) "result" = some (JVal.jarr ids) →
        ids ≠ [] → pySub (JVal.jobj fs) "id" = .ok idv →
        classify_main (JVal.jobj fs) = .ok (.searchLike idv ids))
    ∧ (∀ fs ids, getField (JVal.jobj fs) "result" = some (JVal.jarr ids) →
        ids ≠ [] → pyIn "id" (JVal.jobj fs) = some false →
        classify_main (JVal.jobj fs) = .ok (.fetchLike ids)) := by
  refine ⟨?_, ?_, ?_⟩
  · intro fs hin
    by_cases htr : (JVal.jobj fs).truthy = false
    · simp [classify_main, htr]
    · simp only [Bool.not_eq_false] at htr
      simp [classify_main, htr, hin]
  · intro fs ids idv hres hne hid
    have htr := truthy_of_getField hres
    have hin := pyIn_true_of_getField hres
    have hidin := pyIn_true_of_pySub hid
    have hids : (JVal.jarr ids).truthy = true := by
      simp [JVal.truthy]
      exact hne
    simp [classify_main, htr, hin, hres, hids, hidin, hid]
  · intro fs ids hres hne hidin
    have htr := truthy_of_getField hres
    have hin := pyIn_true_of_getField hres
    have hids : (JVal.jarr ids).truthy = true := by
      simp [JVal.truthy]
      exact hne
    simp [classify_main, htr, hin, hres, hids, hidin]

/-- C6 witness: the spec's search-response example body, with a non-empty
result list. -/
theorem classify_main_rule_witness :
    classify_main (JVal.jobj
        [("result", JVal.jarr [JVal.jstr "abc"]), ("id", JVal.jstr "q1")])
      = .ok (.searchLike (JVal.jstr "q1") [JVal.jstr "abc"]) :=
  classify_main_rule.2.1 [("result", JVal.jarr [JVal.jstr "abc"]), ("id", JVal.jstr "q1")]
    [JVal.jstr "abc"] (JVal.jstr "q1") rfl (by simp) rfl

/-- C6 counterexample: a body with a `result` field AND a top-level `id`
field but an empty result list is routed to the no-items branch, not to the
SearchResult branch the claim requires for every body with both fields. -/
theorem classify_main_empty_result_cex :
    classify_main (JVal.jobj [("result", JVal.jarr []), ("id", JVal.jstr "q1")])
      = .ok .noItems
    ∧ classify_main (JVal.jobj [("result", JVal.jarr []), ("id", JVal.jstr "q1")])
      ≠ .ok (.searchLike (JVal.jstr "q1") []) :=
  ⟨rfl, fun h => MainClass.noConfusion (Except.ok.inj h)⟩

/-- C7 counterexample: a 200 response whose body is the valid JSON object
with "error" bound to the number 1 makes `whisper` raise - the logging
line subscripts `r["error"]["message"]` and the inner subscript on a
non-dict raises TypeError. So `whisper` does not tolerate every response
shape, contrary to the claim's "never raises". -/
theorem whisper_raises_cex :
    whisper ⟨200, some (JVal.jobj [("error", JVal.jnum 1)])⟩
      = .error .typeError := rfl

/-- C7 (amended): the whisper call never raises on any HTTP status - its
request explicitly opts out of error-raising - and an undecodable body is
replaced by the structured invalid-JSON outcome; this holds for every body
that is non-JSON, or decodes to an object without an "error" key, or
decodes to an object whose "error" value is an object carrying "message"
(the shapes of the documented whisper responses). A decoded body outside
those shapes can still raise in the error-logging subscripts. -/
theorem whisper_tolerant (st : Nat) (body : Option JVal)
    (h : whisper_tolerable body = true) :
    exceptOk (whisper ⟨st, body⟩) = true
    ∧ whisper ⟨st, none⟩ = .ok invalid_json_whisper := by
  refine ⟨?_, rfl⟩
  match body with
  | none => rfl
  | some .null | some (.jbool _) | some (.jnum _) | some (.jstr _)
  | some (.jarr _) => simp [whisper_tolerable] at h
  | some (JVal.jobj fs) =>
    have hw : whisper_ ⟨st, some (JVal.jobj fs)⟩ = .ok (JVal.jobj fs) := rfl
    by_cases hany : fs.any (fun p => p.1 == "error") = true
    · cases hfind : fs.find? (fun p => p.1 == "error") with
      | none =>
        obtain ⟨x, hx, hpx⟩ := List.any_eq_true.mp hany
        have := List.find?_eq_none.mp hfind x hx
        exact absurd hpx (by simpa using this)
      | some p =>
        have hget : getField (JVal.jobj fs) "error" = some p.2 := by
          simp [getField, hfind]
        simp only [whisper_tolerable, pyIn, hany, hget] at h
        match hp2 : p.2 with
        | JVal.jobj evs =>
          rw [hp2] at h
          have hmsg : evs.any (fun q => q.1 == "message") = true := by
            simpa using h
          cases hfm : evs.find? (fun q => q.1 == "message") with
          | none =>
            obtain ⟨y, hy, hpy⟩ := List.any_eq_true.mp hmsg
            have := List.find?_eq_none.mp hfm y hy
            exact absurd hpy (by simpa using this)
          | some q =>
            simp [whisper, hw, pyIn, hany, pySub, hfind, hp2, hfm, exceptOk]
        | JVal.null | JVal.jbool _ | JVal.jnum _ | JVal.jstr _ | JVal.jarr _ =>
          rw [hp2] at h
          simp at h
    · simp [whisper, hw, pyIn, hany, exceptOk]

/-- C7 witness: a 404 with a well-formed JSON error body is returned
without raising, and a non-JSON body yields the structured error outcome. -/
theorem whisper_tolerant_witness :
    exceptOk (whisper ⟨404,
        some (JVal.jobj [("error", JVal.jobj
          [("code", JVal.jnum 1), ("message", JVal.jstr "bad request")])])⟩) = true
    ∧ whisper ⟨404, none⟩ = .ok invalid_json_whisper :=
  whisper_tolerant 404
    (some (JVal.jobj [("error", JVal.jobj
      [("code", JVal.jnum 1), ("message", JVal.jstr "bad request")])])) rfl

/-- C9: every outbound request - search, fetch, whisper, and the live
stream connection - carries the realistic browser User-Agent, `Accept: */*`,
`Content-Type: application/json`, and the `POESESSID=<token>` session
cookie derived from the configured credential; and because the cookie is
assigned after the merge with the per-call extras, no per-call extras can
displace it. -/
theorem all_requests_carry_headers (league sessid : String) :
    (dGet (search_headers (mkClientConfig league sessid)) "User-Agent"
        = some "Mozilla/5.0 (Windows NT 10.0; Win64; x64; rv:109.0) Gecko/20100101 Firefox/111.0"
      ∧ dGet (search_headers (mkClientConfig league sessid)) "Accept" = some "*/*"
      ∧ dGet (search_headers (mkClientConfig league sessid)) "Content-Type"
        = some "application/json"
      ∧ dGet (search_headers (mkClientConfig league sessid)) "Cookie"
        = some ("POESESSID=" ++ sessid))
    ∧ fetch_headers (mkClientConfig league sessid)
        = search_headers (mkClientConfig league sessid)
    ∧ live_headers (mkClientConfig league sessid)
        = search_headers (mkClientConfig league sessid)
    ∧ (dGet (whisper_headers (mkClientConfig league sessid)) "User-Agent"
        = some "Mozilla/5.0 (Windows NT 10.0; Win64; x64; rv:109.0) Gecko/20100101 Firefox/111.0"
      ∧ dGet (whisper_headers (mkClientConfig league sessid)) "Accept" = some "*/*"
      ∧ dGet (whisper_headers (mkClientConfig league sessid)) "Content-Type"
        = some "application/json"
      ∧ dGet (whisper_headers (mkClientConfig league sessid)) "Cookie"
        = some ("POESESSID=" ++ sessid))
    ∧ ∀ extras, dGet (build_headers (mkClientConfig league sessid) extras) "Cookie"
        = some ("POESESSID=" ++ sessid) := by
  refine ⟨⟨?_, ?_, ?_, ?_⟩, rfl, rfl, ⟨?_, ?_, ?_, ?_⟩,
      fun extras => dGet_dSet_self _ _ _⟩ <;>
    simp [search_headers, whisper_headers, build_headers, dGet, dSet, dMerge,
      mkClientConfig, default_headers_list, List.find?]

/-- C10: `_build_headers` mutates neither the config's default-header dict
nor the caller's extras dict (including the shared mutable default-argument
dict): it allocates a fresh dict for the merge and assigns the cookie only
there, so both operand dicts read back unchanged, the returned reference is
distinct from both, and the fresh dict's content is exactly the functional
merge-plus-cookie of the operands' contents - no header state can leak
from one call into a later one. -/
theorem build_headers_no_mutation (s : Store) (cfg : ClientConfig) (dr er : Nat)
    (hd : dr < s.dicts.length) (he : er < s.dicts.length) :
    readDict (build_headers_st s cfg dr er).1 dr = readDict s dr
    ∧ readDict (build_headers_st s cfg dr er).1 er = readDict s er
    ∧ (build_headers_st s cfg dr er).2 ≠ dr
    ∧ (build_headers_st s cfg dr er).2 ≠ er
    ∧ readDict (build_headers_st s cfg dr er).1 (build_headers_st s cfg dr er).2
        = dSet (dMerge (readDict s dr) (readDict s er)) "Cookie"
            ("POESESSID=" ++ cfg.poesessid) := by
  have hread : ∀ j, j < s.dicts.length →
      readDict (build_headers_st s cfg dr er).1 j = readDict s j := by
    intro j hj
    simp only [build_headers_st, alloc, writeKey, readDict]
    rw [List.getD_eq_getElem?_getD, List.getD_eq_getElem?_getD,
      List.getElem?_set_ne (by omega), List.getElem?_append, if_pos hj,
      ← List.getD_eq_getElem?_getD]
  refine ⟨hread dr hd, hread er he, ?_, ?_, ?_⟩
  · show s.dicts.length ≠ dr
    omega
  · show s.dicts.length ≠ er
    omega
  · simp only [build_headers_st, alloc, writeKey, readDict]
    rw [List.getD_eq_getElem?_getD, List.getElem?_set_self (by simp),
      Option.getD_some, List.getD_eq_getElem?_getD, List.getElem?_concat_length,
      Option.getD_some]

/-- C10 witness: a concrete two-dict heap. -/
theorem build_headers_no_mutation_witness :
    readDict (build_headers_st ⟨[[("A", "1")], [("B", "2")]]⟩ sampleCfg 0 1).1 0
      = readDict ⟨[[("A", "1")], [("B", "2")]]⟩ 0 :=
  (build_headers_no_mutation ⟨[[("A", "1")], [("B", "2")]]⟩ sampleCfg 0 1
    (by decide) (by decide)).1
